import Mathlib

/-!
Verification development for the core of the `pdfreader` repository:
the document resolution engine (`pdfreader/document.py`) and the
codespace-range engine of the CMap sub-parser (`pdfreader/parsers/cmap.py`).

The Python classes are embedded shallowly: each class becomes a Lean
structure or inductive, each method a Lean function over it.  Machine-level
concerns (logging, file handles) are dropped; everything else follows the
source line by line.  Components of the repository that are not part of the
provided sources (`types.py`, `registry.py`, the parser classes) are
modelled from the specification, and each such definition says so in its
doc comment.
-/

namespace PDFReader

/-- Modelled from the spec: the Value Model of `pdfreader/types.py` (not in
the provided sources).  Spec §3: null, boolean, numeric, name, string,
array, dictionary (a key→value mapping), stream (mapping plus raw
undecoded byte payload), indirect reference (number, generation) and
indirect object (number, generation, value). -/
inductive PDFObj where
  | null
  | boolean (b : Bool)
  | number (n : Int)
  | name (s : String)
  | string (s : String)
  | array (xs : List PDFObj)
  | dict (kvs : List (String × PDFObj))
  | stream (kvs : List (String × PDFObj)) (data : List Nat)
  | ref (num gen : Nat)
  | indirect (num gen : Nat) (val : PDFObj)
deriving Repr

/-- An `IndirectReference` identity: (object number, generation).  Spec §3:
"Two references are equal iff both fields match", so plain pair equality is
the right notion. -/
abbrev Ref := Nat × Nat

/-! ## Range engine (`pdfreader/parsers/cmap.py`)

`HexString` operands are converted to their integer value in the Python
constructors (`begin = begin.as_int` etc.); the embedding therefore works
with integers directly. -/

/-- Python class `Range` (cmap.py): a closed integer interval. -/
structure Range where
  begin : Int
  «end» : Int
deriving Repr, DecidableEq

/-- Method `Range.__contains__` (cmap.py): `self.begin <= item <= self.end`. -/
def Range.contains (r : Range) (x : Int) : Bool :=
  decide (r.begin ≤ x ∧ x ≤ r.«end»)

/-- Method `Range.__len__` (cmap.py): `self.end - self.begin + 1`. -/
def Range.length (r : Range) : Int :=
  r.«end» - r.begin + 1

/-- Python class `MapRange(Range)` (cmap.py): a range plus a linear offset target. -/
structure MapRange extends Range where
  map_to_start : Int
deriving Repr, DecidableEq

/-- Method `MapRange.__getitem__` (cmap.py): `KeyError` (here `none`) when the item
is outside the range, otherwise `self.map_to_start + (item - self.begin)`. -/
def MapRange.getItem (r : MapRange) (x : Int) : Option Int :=
  if r.toRange.contains x then some (r.map_to_start + (x - r.begin)) else none

/-- Method `MapRange.get` (cmap.py): `self[item]`, with the `KeyError` caught and
replaced by `default`.  The Python default may be `None` or a number, hence
the `Option Int` type for it. -/
def MapRange.get (r : MapRange) (x : Int) (default : Option Int) : Option Int :=
  match r.getItem x with
  | some v => some v
  | none => default

/-- Python class `CodespaceRanges` (cmap.py): an insertion-ordered list of ranges. -/
structure CodespaceRanges where
  ranges : List Range
deriving Repr, DecidableEq

/-- Method `CodespaceRanges.__contains__` (cmap.py): `any(item in r for r in self.ranges)`. -/
def CodespaceRanges.contains (c : CodespaceRanges) (x : Int) : Bool :=
  c.ranges.any (fun r => r.contains x)

/-- Method `CodespaceRanges.add` (cmap.py): append `Range(begin, end)`. -/
def CodespaceRanges.add (c : CodespaceRanges) (b e : Int) : CodespaceRanges :=
  ⟨c.ranges ++ [⟨b, e⟩]⟩

/-- Method `CodespaceRanges.merge` (cmap.py): `self.ranges.extend(other.ranges)`.
The Python method mutates `self`; the embedding returns the extended
collection. -/
def CodespaceRanges.merge (c other : CodespaceRanges) : CodespaceRanges :=
  ⟨c.ranges ++ other.ranges⟩

/-- Python class `MappedCodespaceRanges(CodespaceRanges)` (cmap.py). -/
structure MappedCodespaceRanges where
  ranges : List MapRange
deriving Repr, DecidableEq

/-- Method `MappedCodespaceRanges.__contains__`, inherited from `CodespaceRanges`. -/
def MappedCodespaceRanges.contains (m : MappedCodespaceRanges) (x : Int) : Bool :=
  m.ranges.any (fun r => r.toRange.contains x)

/-- Method `MappedCodespaceRanges.add` (cmap.py): append `MapRange(begin, end, map_to_start)`. -/
def MappedCodespaceRanges.add (m : MappedCodespaceRanges) (b e mts : Int) :
    MappedCodespaceRanges :=
  ⟨m.ranges ++ [⟨⟨b, e⟩, mts⟩]⟩

/-- Method `MappedCodespaceRanges.merge`, inherited from `CodespaceRanges`. -/
def MappedCodespaceRanges.merge (m other : MappedCodespaceRanges) :
    MappedCodespaceRanges :=
  ⟨m.ranges ++ other.ranges⟩

/-- Method `MappedCodespaceRanges.__getitem__` (cmap.py): scan `self.ranges` in
order, return `r[item]` for the first `r` containing `item`, else `KeyError`
(here `none`).  `List.find?` is exactly the first-match scan of the `for`
loop. -/
def MappedCodespaceRanges.getItem (m : MappedCodespaceRanges) (x : Int) : Option Int :=
  match m.ranges.find? (fun r => r.toRange.contains x) with
  | some r => r.getItem x
  | none => none

/-- Method `MappedCodespaceRanges.get` (cmap.py): `self[item]` with `KeyError`
replaced by `default`. -/
def MappedCodespaceRanges.get (m : MappedCodespaceRanges) (x : Int)
    (default : Option Int) : Option Int :=
  match m.getItem x with
  | some v => some v
  | none => default

/-! ## Document resolution engine: `build` (`pdfreader/document.py`)

`build` replaces object references with objects, resolving them through
`obj_by_ref` (= `locate_object` + factory).  `locate_object` memoizes and,
for a fixed byte source, always hands back the same value for the same key
(that is claim C4, proved below over the full stateful model), so for the
`build` claims the resolution step is modelled as a pure finite map from
(number, generation) to the resolved value.  A key the source cannot
provide resolves to null: `locate_object` registers null for it and
returns that entry. -/

/-- The document's resolvable objects: (number, generation) → value. -/
abbrev Doc := List (Ref × PDFObj)

/-- The keys the document can resolve. -/
def refsOf (d : Doc) : List Ref := d.map Prod.fst

/-- Resolution as seen by `build`: `obj_by_ref` for a present key, `none`
when the byte source has nothing for the key. -/
def lookupObj? (d : Doc) (r : Ref) : Option PDFObj :=
  (d.find? (fun p => decide (p.1 = r))).map Prod.snd

/-- Modelled from the spec: the domain object factory (`obj_factory` of
`types.py`, not in the provided sources) is an external collaborator that
"may wrap it as a higher-level typed object" (spec §4.3, §6); it is
modelled as the identity wrapper, preserving the wrapped value. -/
def obj_factory (obj : PDFObj) : PDFObj := obj

/-- Termination measure ingredient for `build`: how many of the document's
keys are not yet on the recursion path.  Expanding a not-yet-visited
reference strictly shrinks it. -/
def flen (d : Doc) (visited : List Ref) : Nat :=
  ((refsOf d).filter (fun r => decide (r ∉ visited))).length

mutual

/-- Method `PDFDocument.build` (document.py lines 48-81).  The Python method
mutates the `visited` list in place (append at line 59, pop at line 80), so
the embedding threads the list through the recursion and returns its final
state next to the built object; the subtype records that every call leaves
`visited` exactly as it found it (the push is always popped), which is also
what makes the recursion well-founded. -/
def build (d : Doc) (obj : PDFObj) (visited : List Ref) (lz : Bool) :
    { p : PDFObj × List Ref // p.2 = visited } :=
  match obj with
  | .ref n g =>
    if h : (n, g) ∈ visited then
      -- line 58: a reference already on the recursion path is not expanded,
      -- and the dispatch below is a no-op on references: returned as-is
      ⟨(.ref n g, visited), rfl⟩
    else
      match hf : lookupObj? d (n, g) with
      | some v =>
        -- lines 59-61: push the reference, dereference, dispatch on the
        -- result, then pop (lines 79-80)
        (match buildDispatch d v (visited ++ [(n, g)]) lz with
          | ⟨(bv, v2), hp⟩ =>
            ⟨(bv, v2.dropLast), by
              rw [show v2 = visited ++ [(n, g)] from hp]
              simp⟩)
      | none =>
        -- a key the source cannot provide resolves to null (locate_object
        -- registers null); the dispatch is a no-op on null, and the push of
        -- line 59 is undone by the pop of line 80
        ⟨(.null, visited), rfl⟩
  | o => buildDispatch d o visited lz
termination_by (flen d visited, sizeOf obj, 1)
decreasing_by
· simp_wf
  apply Prod.Lex.left
  have hmem : (n, g) ∈ refsOf d := by
    unfold lookupObj? at hf
    cases hff : List.find? (fun p => decide (p.1 = (n, g))) d with
    | none => rw [hff] at hf; simp at hf
    | some pr =>
      have h1 := List.mem_of_find?_eq_some hff
      have h2 := List.find?_some hff
      simp only [decide_eq_true_eq] at h2
      exact h2 ▸ List.mem_map_of_mem Prod.fst h1
  have hsub : ((refsOf d).filter (fun r => decide (r ∉ visited ++ [(n, g)]))).Sublist
      ((refsOf d).filter (fun r => decide (r ∉ visited))) := by
    apply List.monotone_filter_right
    intro a ha
    simp only [decide_eq_true_eq] at ha ⊢
    exact fun hc => ha (List.mem_append_left _ hc)
  have hin : (n, g) ∈ (refsOf d).filter (fun r => decide (r ∉ visited)) :=
    List.mem_filter.2 ⟨hmem, by simpa using h⟩
  have hnotin : (n, g) ∉ (refsOf d).filter
      (fun r => decide (r ∉ visited ++ [(n, g)])) := by
    simp [List.mem_filter]
  unfold flen
  exact Nat.lt_of_le_of_ne hsub.length_le
    (fun he => hnotin ((hsub.eq_of_length he).symm ▸ hin))
· apply Prod.Lex.right
  apply Prod.Lex.right
  omega

/-- Lines 63-77 of document.py: the type dispatch `build` performs after
the optional dereference. -/
def buildDispatch (d : Doc) (obj : PDFObj) (visited : List Ref) (lz : Bool) :
    { p : PDFObj × List Ref // p.2 = visited } :=
  match obj with
  | .array xs =>
    -- line 65: every element is built, regardless of lazy
    (match buildList d xs visited lz with
      | ⟨(bxs, v2), hp⟩ => ⟨(.array bxs, v2), hp⟩)
  | .dict kvs =>
    -- lines 66-69: values built only when not lazy, then the factory
    if lz then ⟨(obj_factory (.dict kvs), visited), rfl⟩
    else
      match buildKVs d kvs visited lz with
      | ⟨(bkvs, v2), hp⟩ => ⟨(obj_factory (.dict bkvs), v2), hp⟩
  | .stream kvs data =>
    -- lines 70-73: same as dictionaries, on the stream's dictionary; the
    -- payload bytes are carried over untouched
    if lz then ⟨(obj_factory (.stream kvs data), visited), rfl⟩
    else
      match buildKVs d kvs visited lz with
      | ⟨(bkvs, v2), hp⟩ => ⟨(obj_factory (.stream bkvs data), v2), hp⟩
  | .indirect _ _ v =>
    -- lines 74-77: unexpected raw indirect object: build its value
    build d v visited lz
  | o => ⟨(o, visited), rfl⟩
termination_by (flen d visited, sizeOf obj, 0)

/-- Line 65 of document.py: the list comprehension over an array's
elements, with the in-place `visited` threaded left to right. -/
def buildList (d : Doc) (xs : List PDFObj) (visited : List Ref) (lz : Bool) :
    { p : List PDFObj × List Ref // p.2 = visited } :=
  match xs with
  | [] => ⟨([], visited), rfl⟩
  | x :: rest =>
    match build d x visited lz with
    | ⟨(bx, v2), hp⟩ =>
      match buildList d rest v2 lz with
      | ⟨(brest, v3), hq⟩ => ⟨(bx :: brest, v3), hq.trans hp⟩
termination_by (flen d visited, sizeOf xs, 0)
decreasing_by
· simp_wf
  apply Prod.Lex.right
  apply Prod.Lex.left
  omega
· simp_wf
  have hv : v2 = visited := hp
  rw [hv]
  apply Prod.Lex.right
  apply Prod.Lex.left
  omega

/-- Lines 68 and 72 of document.py: the dict comprehension over a
mapping's entries, with the in-place `visited` threaded left to right. -/
def buildKVs (d : Doc) (kvs : List (String × PDFObj)) (visited : List Ref)
    (lz : Bool) :
    { p : List (String × PDFObj) × List Ref // p.2 = visited } :=
  match kvs with
  | [] => ⟨([], visited), rfl⟩
  | (k, v) :: rest =>
    match build d v visited lz with
    | ⟨(bv, v2), hp⟩ =>
      match buildKVs d rest v2 lz with
      | ⟨(brest, v3), hq⟩ => ⟨((k, bv) :: brest, v3), hq.trans hp⟩
termination_by (flen d visited, sizeOf kvs, 0)
decreasing_by
· simp_wf
  apply Prod.Lex.right
  apply Prod.Lex.left
  omega
· simp_wf
  have hv : v2 = visited := hp
  rw [hv]
  apply Prod.Lex.right
  apply Prod.Lex.left
  omega

end

/-- The stream instance's `dictionary` attribute after `build` returns:
line 72 of document.py assigns the rebuilt mapping to the given stream
instance in place when `lazy` is false (`obj.dictionary = {k: ...}`); in
lazy mode the dictionary is not touched. -/
def streamDictAfterBuild (d : Doc) (kvs : List (String × PDFObj))
    (visited : List Ref) (lz : Bool) : List (String × PDFObj) :=
  if lz then kvs else (buildKVs d kvs visited lz).val.1

/-! ## Stateful resolution: `locate_object` and `deep_obj_by_ref`

The registry, the registering parser and the xref tables come from files
that are not part of the provided sources (`registry.py`, `parsers.py`,
`xref.py`); they are modelled from the spec as stated on each definition.
`locate_object` itself (document.py lines 83-119) is translated line by
line over that state. -/

/-- Modelled from the spec: the Object Registry (`registry.py`, not in the
provided sources).  Spec §4.2 and §3: an append-only memo mapping (number,
generation) to the resolved value, "at most one entry per key ...; once
set, never silently overwritten by a different value — re-registration is
idempotent for the same key". -/
abbrev Registry := List (Ref × PDFObj)

/-- Modelled from the spec: `Registry.is_registered(number, generation)`. -/
def is_registered (R : Registry) (r : Ref) : Bool :=
  (R.find? (fun p => decide (p.1 = r))).isSome

/-- Modelled from the spec: `Registry.get(number, generation) -> value`,
`none` when absent (the raised Lookup error). -/
def registryGet (R : Registry) (r : Ref) : Option PDFObj :=
  (R.find? (fun p => decide (p.1 = r))).map Prod.snd

/-- Modelled from the spec: `Registry.register(indirect_object)`;
idempotent re-registration: an already-registered key keeps its stored
value. -/
def register (R : Registry) (r : Ref) (v : PDFObj) : Registry :=
  if is_registered R r then R else R ++ [(r, v)]

/-- Modelled from the spec: an in-use XRef row (byte offset, generation). -/
structure XRefEntry where
  offset : Nat
  generation : Nat

/-- Modelled from the spec: a compressed XRef row (container object number,
generation). -/
structure CompressedEntry where
  number : Nat
  generation : Nat

/-- Modelled from the spec: one index section; `in_use`/`compressed` are
the dict lookups `xref.in_use.get(num)` / `xref.compressed.get(num)`. -/
structure XRefSection where
  in_use : Nat → Option XRefEntry
  compressed : Nat → Option CompressedEntry

/-- Modelled from the spec: the parseable content of the byte source.
`xrefs` is the trailer's section chain in recency order.  `offsetParse o`
models `parser.reset(o); parser.indirect_object()`: `some (r, v)` when an
indirect object parses at byte offset `o` (the registering parser stores it
under its own number/generation — spec §4.3 tier 1, "self-describing"),
`none` for a ParserException.  `bf` is the sequence of top-level body
elements of the brute-force scan, from the point right after the header:
`some (r, v)` an indirect object (registered when parsed), `none` an
element registering nothing (startxref / trailer); past its end the next
parse raises (end of source). -/
structure Source where
  xrefs : List XRefSection
  offsetParse : Nat → Option (Ref × PDFObj)
  bf : List (Option (Ref × PDFObj))

/-- The document's mutable state: the registry and the persisted
brute-force cursor (`self.brute_force_state`), an index into `Source.bf`. -/
structure DocState where
  registry : Registry
  bfPos : Nat

/-- document.py lines 93-101, one section's in-use attempt: if an in-use
entry for `num` matches `gen`, seek and parse (a ParserException is
swallowed), then report whether the key became registered (the `break`
test). -/
def tryInUse (src : Source) (x : XRefSection) (num gen : Nat) (st : DocState) :
    DocState × Bool :=
  match x.in_use num with
  | some xre =>
    if xre.generation = gen then
      let st1 :=
        match src.offsetParse xre.offset with
        | some rv => { st with registry := register st.registry rv.1 rv.2 }
        | none => st
      (st1, is_registered st1.registry (num, gen))
    else (st, false)
  | none => (st, false)

/-- document.py lines 102-108, one section's compressed attempt: locate the
container (`recur` is the recursive `locate_object` call of line 106), then
report whether the key became registered (the `break` test). -/
def tryCompressed (recur : DocState → Nat → Nat → DocState) (x : XRefSection)
    (num gen : Nat) (st : DocState) : DocState × Bool :=
  match x.compressed num with
  | some xre =>
    if xre.generation = gen then
      let st1 := recur st xre.number xre.generation
      (st1, is_registered st1.registry (num, gen))
    else (st, false)
  | none => (st, false)

/-- document.py lines 91-108: the `for xref in self.trailer.xrefs` loop
with its two `break`s. -/
def xrefGo (recur : DocState → Nat → Nat → DocState) (src : Source)
    (num gen : Nat) : DocState → List XRefSection → DocState
  | st, [] => st
  | st, x :: rest =>
    let a := tryInUse src x num gen st
    if a.2 then a.1
    else
      let b := tryCompressed recur x num gen a.1
      if b.2 then b.1
      else xrefGo recur src num gen b.1 rest

/-- document.py lines 135-140, `next_brute_force_object`: parse the next
body element at the persisted cursor (an indirect object is registered by
the registering parser) and persist the advanced cursor. -/
def bfStep (src : Source) (st : DocState) : DocState :=
  let st1 : DocState := { st with bfPos := st.bfPos + 1 }
  match src.bf.get? st.bfPos with
  | some (some rv) => { st1 with registry := register st1.registry rv.1 rv.2 }
  | _ => st1

/-- document.py lines 110-117: `while not registered: try next brute-force
object, except ParserException: log, register null, break`.  `k` counts the
body elements left before the scan hits the end of the source, where the
parse raises and the key is registered as null; the wrapper passes
`src.bf.length - st.bfPos`. -/
def bfGo (src : Source) (num gen : Nat) : Nat → DocState → DocState
  | k, st =>
    if is_registered st.registry (num, gen) then st
    else
      match k with
      | 0 => { st with registry := register st.registry (num, gen) PDFObj.null }
      | kk + 1 => bfGo src num gen kk (bfStep src st)

/-- document.py lines 110-119 after the xref loop: the brute-force loop,
then `registry.get` (`none` would be the raised Lookup error; the loop
guarantees the key is registered, so it never is). -/
def locateFinish (src : Source) (num gen : Nat) (st1 : DocState) :
    Option PDFObj × DocState :=
  let st2 := bfGo src num gen (src.bf.length - st1.bfPos) st1
  (registryGet st2.registry (num, gen), st2)

/-- Method `PDFDocument.locate_object` (document.py lines 83-119).  `fuel` bounds
only the compressed-entry recursion of line 106, which the source leaves
unbounded (a self-referential compressed entry recurses forever there); at
fuel 0 the recursive call is modelled as a no-op.  Every property proved
below holds for every fuel. -/
def locate_object : Nat → Source → DocState → Nat → Nat → Option PDFObj × DocState
  | 0, src, st, num, gen =>
    locateFinish src num gen (xrefGo (fun s _ _ => s) src num gen st src.xrefs)
  | fuel + 1, src, st, num, gen =>
    locateFinish src num gen
      (xrefGo (fun s n g => (locate_object fuel src s n g).2) src num gen st
        src.xrefs)

/-- Method `PDFDocument.obj_by_ref` (document.py lines 121-123): locate, then the
domain object factory. -/
def obj_by_ref (fuel : Nat) (src : Source) (st : DocState) (num gen : Nat) :
    Option PDFObj × DocState :=
  match locate_object fuel src st num gen with
  | (some o, st1) => (some (obj_factory o), st1)
  | (none, st1) => (none, st1)

/-- The hard failures of resolution (spec §7): a registry miss at `get`
and the Depth-exceeded `ValueError` of `deep_obj_by_ref`. -/
inductive PDFError where
  | lookupError
  | depthExceeded
deriving Repr, DecidableEq

/-- The test `isinstance(obj, IndirectObject)` — the loop and failure test of
document.py lines 127 and 131. -/
def PDFObj.isIndirectObj : PDFObj → Bool
  | .indirect _ _ _ => true
  | _ => false

/-- The `while isinstance(obj, IndirectObject) and counter` loop of
`deep_obj_by_ref` (document.py lines 126-129), counting `counter` down and
threading the document state through `obj_by_ref`. -/
def deepLoop (fuel : Nat) (src : Source) :
    Nat → DocState → PDFObj → Except PDFError PDFObj × DocState
  | 0, st, obj => (.ok obj, st)
  | c + 1, st, obj =>
    match obj with
    | .indirect n g _ =>
      (match obj_by_ref fuel src st n g with
       | (some o, st1) => deepLoop fuel src c st1 o
       | (none, st1) => (.error .lookupError, st1))
    | _ => (.ok obj, st)

/-- Method `PDFDocument.deep_obj_by_ref` (document.py lines 125-133): run the
loop, then `raise ValueError("Max reference depth exceeded")` when the
result is still an IndirectObject. -/
def deep_obj_by_ref (fuel : Nat) (src : Source) (st : DocState) (obj : PDFObj)
    (maxdepth : Nat) : Except PDFError PDFObj × DocState :=
  match deepLoop fuel src maxdepth st obj with
  | (.ok o, st1) =>
    if o.isIndirectObj then (.error .depthExceeded, st1) else (.ok o, st1)
  | (.error e, st1) => (.error e, st1)

/-- A state transformer that keeps every registered key registered with its
stored value: the shape of every state change `locate_object` performs
(registration only, never overwriting). -/
def PreservesReg (f : DocState → DocState) : Prop :=
  ∀ st k, is_registered st.registry k = true →
    is_registered (f st).registry k = true ∧
    registryGet (f st).registry k = registryGet st.registry k

/-! ## Concrete documents, sources and range collections used by the
claims below -/

/-- Overlapping ranges [0,10]→100 and [5,8]→200 inserted in that order,
exactly as in the spec's overlap example. -/
def overlapExample : MappedCodespaceRanges :=
  (MappedCodespaceRanges.add (MappedCodespaceRanges.add ⟨[]⟩ 0 10 100) 5 8 200)

/-- The collection holding only [0,10]→100. -/
def overlapA : MappedCodespaceRanges := ⟨[⟨⟨0, 10⟩, 100⟩]⟩

/-- The collection holding only [5,8]→200. -/
def overlapB : MappedCodespaceRanges := ⟨[⟨⟨5, 8⟩, 200⟩]⟩

def cyclicDoc : Doc := [((1, 0), PDFObj.dict [("A", PDFObj.ref 1 0)])]

/-- A document resolving (1, 0) to the number 7, used to exhibit the
in-place dictionary mutation of document.py line 72. -/
def refDoc : Doc := [((1, 0), PDFObj.number 7)]

/-- A source with no index rows, nothing parseable at any offset, and two
brute-force body elements: a non-registering one (a trailer keyword) and
the object (2, 0) — nothing for the key (7, 0). -/
def missSrc : Source :=
  ⟨[], fun _ => none, [none, some ((2, 0), PDFObj.number 5)]⟩

/-- A source with no index rows, nothing parseable anywhere and an empty
brute-force tail. -/
def srcEmpty : Source := ⟨[], fun _ => none, []⟩

/-- A registry holding a chain of 150 nested references: key (i, 0) stores
the reference to (i+1, 0). -/
def refChainReg : Registry :=
  (List.range 150).map (fun i => ((i, 0), PDFObj.ref (i + 1) 0))

/-- A registry holding a chain of 150 nested IndirectObject values: key
(i, 0) stores the indirect object pointing on to (i+1, 0) for i < 149, and
(149, 0) stores null, so the chain bottoms out after exactly 150 hops. -/
def indChainReg : Registry :=
  (List.range 149).map (fun i => ((i, 0), PDFObj.indirect (i + 1) 0 PDFObj.null))
    ++ [((149, 0), PDFObj.null)]

/-! ## Step lemmas and invariants

Evaluation equations for the well-founded `build` (whose defining
equations do not reduce definitionally), the registry laws, and the
preservation invariants of `locate_object`. -/

theorem build_ref_mem (d : Doc) (n g : Nat) (visited : List Ref) (lz : Bool)
    (h : (n, g) ∈ visited) :
    (build d (PDFObj.ref n g) visited lz).val = (PDFObj.ref n g, visited) := by
  rw [build.eq_def]
  simp [h]

theorem build_ref_some (d : Doc) (n g : Nat) (visited : List Ref) (lz : Bool)
    (h : (n, g) ∉ visited) (v : PDFObj) (hf : lookupObj? d (n, g) = some v) :
    (build d (PDFObj.ref n g) visited lz).val
      = ((buildDispatch d v (visited ++ [(n, g)]) lz).val.1, visited) := by
  rw [build.eq_def]
  simp only [dif_neg h]
  split
  · rename_i v2 hf2
    rw [hf] at hf2
    cases hf2
    rcases hb : buildDispatch d v (visited ++ [(n, g)]) lz with ⟨⟨bv, w⟩, hp⟩
    have hw : w = visited ++ [(n, g)] := hp
    subst hw
    simp
  · rename_i hf2
    rw [hf] at hf2
    cases hf2

theorem build_ref_none (d : Doc) (n g : Nat) (visited : List Ref) (lz : Bool)
    (h : (n, g) ∉ visited) (hf : lookupObj? d (n, g) = none) :
    (build d (PDFObj.ref n g) visited lz).val = (PDFObj.null, visited) := by
  rw [build.eq_def]
  simp only [dif_neg h]
  split
  · rename_i v2 hf2
    rw [hf] at hf2
    cases hf2
  · rfl

theorem build_null (d : Doc) (visited : List Ref) (lz : Bool) :
    (build d PDFObj.null visited lz).val = (PDFObj.null, visited) := by
  simp [build.eq_def, buildDispatch.eq_def]

theorem build_boolean (d : Doc) (b : Bool) (visited : List Ref) (lz : Bool) :
    (build d (PDFObj.boolean b) visited lz).val = (PDFObj.boolean b, visited) := by
  simp [build.eq_def, buildDispatch.eq_def]

theorem build_number (d : Doc) (n : Int) (visited : List Ref) (lz : Bool) :
    (build d (PDFObj.number n) visited lz).val = (PDFObj.number n, visited) := by
  simp [build.eq_def, buildDispatch.eq_def]

theorem build_name (d : Doc) (s : String) (visited : List Ref) (lz : Bool) :
    (build d (PDFObj.name s) visited lz).val = (PDFObj.name s, visited) := by
  simp [build.eq_def, buildDispatch.eq_def]

theorem build_string (d : Doc) (s : String) (visited : List Ref) (lz : Bool) :
    (build d (PDFObj.string s) visited lz).val = (PDFObj.string s, visited) := by
  simp [build.eq_def, buildDispatch.eq_def]

theorem build_array (d : Doc) (xs : List PDFObj) (visited : List Ref) (lz : Bool) :
    (build d (PDFObj.array xs) visited lz).val
      = (PDFObj.array (buildList d xs visited lz).val.1, visited) := by
  simp only [build.eq_def, buildDispatch.eq_def]
  rcases hb : buildList d xs visited lz with ⟨⟨bxs, v2⟩, hp⟩
  have hv : v2 = visited := hp
  subst hv
  simp

theorem build_dict (d : Doc) (kvs : List (String × PDFObj)) (visited : List Ref)
    (lz : Bool) :
    (build d (PDFObj.dict kvs) visited lz).val
      = (if lz then (obj_factory (PDFObj.dict kvs), visited)
         else (obj_factory (PDFObj.dict (buildKVs d kvs visited lz).val.1), visited)) := by
  simp only [build.eq_def, buildDispatch.eq_def]
  cases lz
  · simp [(buildKVs d kvs visited false).2]
  · simp

theorem build_stream (d : Doc) (kvs : List (String × PDFObj)) (data : List Nat)
    (visited : List Ref) (lz : Bool) :
    (build d (PDFObj.stream kvs data) visited lz).val
      = (if lz then (obj_factory (PDFObj.stream kvs data), visited)
         else (obj_factory (PDFObj.stream (buildKVs d kvs visited lz).val.1 data),
               visited)) := by
  simp only [build.eq_def, buildDispatch.eq_def]
  cases lz
  · simp [(buildKVs d kvs visited false).2]
  · simp

theorem build_indirect (d : Doc) (n g : Nat) (v : PDFObj) (visited : List Ref)
    (lz : Bool) :
    (build d (PDFObj.indirect n g v) visited lz).val = (build d v visited lz).val := by
  conv_lhs => rw [build.eq_def]
  simp only []
  conv_lhs => rw [buildDispatch.eq_def]

theorem buildList_nil (d : Doc) (visited : List Ref) (lz : Bool) :
    (buildList d [] visited lz).val = ([], visited) := by
  simp [buildList.eq_def]

theorem buildList_cons_threaded (d : Doc) (x : PDFObj) (rest : List PDFObj)
    (visited : List Ref) (lz : Bool) :
    (buildList d (x :: rest) visited lz).val
      = ((build d x visited lz).val.1
           :: (buildList d rest (build d x visited lz).val.2 lz).val.1,
         (buildList d rest (build d x visited lz).val.2 lz).val.2) := by
  rw [buildList.eq_def]

theorem buildList_cons (d : Doc) (x : PDFObj) (rest : List PDFObj)
    (visited : List Ref) (lz : Bool) :
    (buildList d (x :: rest) visited lz).val
      = ((build d x visited lz).val.1 :: (buildList d rest visited lz).val.1,
         visited) := by
  have hb := (build d x visited lz).2
  have hb2 := (buildList d rest visited lz).2
  rw [buildList_cons_threaded, hb, hb2]

theorem buildKVs_nil (d : Doc) (visited : List Ref) (lz : Bool) :
    (buildKVs d [] visited lz).val = ([], visited) := by
  simp [buildKVs.eq_def]

theorem buildKVs_cons_threaded (d : Doc) (k : String) (v : PDFObj)
    (rest : List (String × PDFObj)) (visited : List Ref) (lz : Bool) :
    (buildKVs d ((k, v) :: rest) visited lz).val
      = ((k, (build d v visited lz).val.1)
           :: (buildKVs d rest (build d v visited lz).val.2 lz).val.1,
         (buildKVs d rest (build d v visited lz).val.2 lz).val.2) := by
  rw [buildKVs.eq_def]

theorem buildKVs_cons (d : Doc) (k : String) (v : PDFObj)
    (rest : List (String × PDFObj)) (visited : List Ref) (lz : Bool) :
    (buildKVs d ((k, v) :: rest) visited lz).val
      = ((k, (build d v visited lz).val.1) :: (buildKVs d rest visited lz).val.1,
         visited) := by
  have hb := (build d v visited lz).2
  have hb2 := (buildKVs d rest visited lz).2
  rw [buildKVs_cons_threaded, hb, hb2]

theorem buildDispatch_dict (d : Doc) (kvs : List (String × PDFObj))
    (visited : List Ref) (lz : Bool) :
    (buildDispatch d (PDFObj.dict kvs) visited lz).val
      = (if lz then (obj_factory (PDFObj.dict kvs), visited)
         else (obj_factory (PDFObj.dict (buildKVs d kvs visited lz).val.1), visited)) := by
  simp only [buildDispatch.eq_def]
  cases lz
  · simp [(buildKVs d kvs visited false).2]
  · simp

theorem buildDispatch_number (d : Doc) (n : Int) (visited : List Ref) (lz : Bool) :
    (buildDispatch d (PDFObj.number n) visited lz).val = (PDFObj.number n, visited) := by
  rw [buildDispatch.eq_def]

theorem is_registered_eq_isSome (R : Registry) (k : Ref) :
    is_registered R k = (registryGet R k).isSome := by
  unfold is_registered registryGet
  cases R.find? (fun p => decide (p.1 = k)) <;> simp

theorem find?_eq_none_of_not_registered (R : Registry) (k : Ref)
    (h : is_registered R k = false) :
    R.find? (fun p => decide (p.1 = k)) = none := by
  unfold is_registered at h
  cases hc : R.find? (fun p => decide (p.1 = k)) with
  | none => rfl
  | some p => rw [hc] at h; simp at h

theorem registryGet_register_self (R : Registry) (k : Ref) (v : PDFObj)
    (h : is_registered R k = false) :
    registryGet (register R k v) k = some v := by
  unfold register
  rw [h]
  simp only [Bool.false_eq_true, if_false]
  unfold registryGet
  rw [List.find?_append, find?_eq_none_of_not_registered R k h]
  simp

theorem registryGet_register_of_registered (R : Registry) (k r : Ref) (v : PDFObj)
    (h : is_registered R k = true) :
    registryGet (register R r v) k = registryGet R k := by
  unfold register
  cases hr : is_registered R r with
  | true => rfl
  | false =>
    simp only [Bool.false_eq_true, if_false]
    unfold registryGet
    rw [List.find?_append]
    have hex : ∃ p, R.find? (fun p => decide (p.1 = k)) = some p := by
      unfold is_registered at h
      cases hc : R.find? (fun p => decide (p.1 = k)) with
      | none => rw [hc] at h; simp at h
      | some p => exact ⟨p, rfl⟩
    obtain ⟨p, hp⟩ := hex
    rw [hp]
    rfl

theorem is_registered_register (R : Registry) (k r : Ref) (v : PDFObj)
    (h : is_registered R k = true) :
    is_registered (register R r v) k = true := by
  rw [is_registered_eq_isSome, registryGet_register_of_registered R k r v h,
    ← is_registered_eq_isSome]
  exact h

theorem is_registered_register_self (R : Registry) (k : Ref) (v : PDFObj) :
    is_registered (register R k v) k = true := by
  cases hr : is_registered R k with
  | true => simp [register, hr]
  | false =>
    rw [is_registered_eq_isSome, registryGet_register_self R k v hr]
    rfl

theorem is_registered_register_of_ne (R : Registry) (k r : Ref) (v : PDFObj)
    (hne : r ≠ k) :
    is_registered (register R r v) k = is_registered R k := by
  unfold register
  cases hr : is_registered R r with
  | true => rfl
  | false =>
    simp only [Bool.false_eq_true, if_false]
    unfold is_registered
    rw [List.find?_append]
    cases hc : R.find? (fun p => decide (p.1 = k)) with
    | none => simp [List.find?, hne]
    | some p => simp

theorem pres_bfStep (src : Source) : PreservesReg (bfStep src) := by
  intro st k h
  unfold bfStep
  cases hg : src.bf.get? st.bfPos with
  | none => exact ⟨h, rfl⟩
  | some o =>
    cases o with
    | none => exact ⟨h, rfl⟩
    | some rv =>
      exact ⟨is_registered_register _ _ _ _ h,
        registryGet_register_of_registered _ _ _ _ h⟩

theorem pres_bfGo (src : Source) (num gen : Nat) :
    ∀ k, PreservesReg (fun st => bfGo src num gen k st) := by
  intro k
  induction k with
  | zero =>
    intro st k' h
    unfold bfGo
    cases hr : is_registered st.registry (num, gen) with
    | true => exact ⟨h, rfl⟩
    | false =>
      simp only [Bool.false_eq_true, if_false]
      exact ⟨is_registered_register _ _ _ _ h,
        registryGet_register_of_registered _ _ _ _ h⟩
  | succ kk ih =>
    intro st k' h
    unfold bfGo
    cases hr : is_registered st.registry (num, gen) with
    | true => exact ⟨h, rfl⟩
    | false =>
      simp only [Bool.false_eq_true, if_false]
      have h1 := pres_bfStep src st k' h
      have h2 := ih (bfStep src st) k' h1.1
      exact ⟨h2.1, h2.2.trans h1.2⟩

theorem pres_tryInUse (src : Source) (x : XRefSection) (num gen : Nat) :
    PreservesReg (fun st => (tryInUse src x num gen st).1) := by
  intro st k h
  unfold tryInUse
  cases x.in_use num with
  | none => exact ⟨h, rfl⟩
  | some xre =>
    dsimp only
    by_cases hg : xre.generation = gen
    · rw [if_pos hg]
      cases src.offsetParse xre.offset with
      | none => exact ⟨h, rfl⟩
      | some rv =>
        exact ⟨is_registered_register _ _ _ _ h,
          registryGet_register_of_registered _ _ _ _ h⟩
    · rw [if_neg hg]
      exact ⟨h, rfl⟩

theorem pres_tryCompressed (x : XRefSection) (num gen : Nat)
    (recur : DocState → Nat → Nat → DocState)
    (hrec : ∀ n g, PreservesReg (fun st => recur st n g)) :
    PreservesReg (fun st => (tryCompressed recur x num gen st).1) := by
  intro st k h
  unfold tryCompressed
  cases x.compressed num with
  | none => exact ⟨h, rfl⟩
  | some xre =>
    dsimp only
    by_cases hg : xre.generation = gen
    · rw [if_pos hg]
      exact hrec xre.number xre.generation st k h
    · rw [if_neg hg]
      exact ⟨h, rfl⟩

theorem pres_xrefGo (src : Source) (num gen : Nat)
    (recur : DocState → Nat → Nat → DocState)
    (hrec : ∀ n g, PreservesReg (fun st => recur st n g)) :
    ∀ sections, PreservesReg (fun st => xrefGo recur src num gen st sections) := by
  intro sections
  induction sections with
  | nil => intro st k h; exact ⟨h, rfl⟩
  | cons x rest ih =>
    intro st k h
    unfold xrefGo
    have h1 := pres_tryInUse src x num gen st k h
    by_cases ha : (tryInUse src x num gen st).2 = true
    · rw [if_pos ha]
      exact h1
    · rw [if_neg ha]
      have h2 := pres_tryCompressed x num gen recur hrec _ k h1.1
      by_cases hb :
        (tryCompressed recur x num gen (tryInUse src x num gen st).1).2 = true
      · rw [if_pos hb]
        exact ⟨h2.1, h2.2.trans h1.2⟩
      · rw [if_neg hb]
        have h3 := ih _ k h2.1
        exact ⟨h3.1, h3.2.trans (h2.2.trans h1.2)⟩

theorem pres_locateState :
    ∀ (fuel : Nat) (src : Source) (num gen : Nat),
      PreservesReg (fun st => (locate_object fuel src st num gen).2) := by
  intro fuel
  induction fuel with
  | zero =>
    intro src num gen st k h
    unfold locate_object locateFinish
    have h1 := pres_xrefGo src num gen (fun s _ _ => s)
      (fun _ _ _ _ h' => ⟨h', rfl⟩) src.xrefs st k h
    dsimp only at h1
    have h2 := pres_bfGo src num gen
      (src.bf.length - (xrefGo (fun s _ _ => s) src num gen st src.xrefs).bfPos)
      (xrefGo (fun s _ _ => s) src num gen st src.xrefs) k h1.1
    exact ⟨h2.1, h2.2.trans h1.2⟩
  | succ f ih =>
    intro src num gen st k h
    unfold locate_object locateFinish
    have h1 := pres_xrefGo src num gen
      (fun s n g => (locate_object f src s n g).2)
      (fun n g => ih src n g) src.xrefs st k h
    dsimp only at h1
    have h2 := pres_bfGo src num gen
      (src.bf.length
        - (xrefGo (fun s n g => (locate_object f src s n g).2) src num gen st
            src.xrefs).bfPos)
      (xrefGo (fun s n g => (locate_object f src s n g).2) src num gen st
        src.xrefs) k h1.1
    exact ⟨h2.1, h2.2.trans h1.2⟩

theorem bfGo_registered (src : Source) (num gen : Nat) :
    ∀ (k : Nat) (st : DocState),
      is_registered (bfGo src num gen k st).registry (num, gen) = true := by
  intro k
  induction k with
  | zero =>
    intro st
    unfold bfGo
    cases hr : is_registered st.registry (num, gen) with
    | true => exact hr
    | false =>
      simp only [Bool.false_eq_true, if_false]
      exact is_registered_register_self _ _ _
  | succ kk ih =>
    intro st
    unfold bfGo
    cases hr : is_registered st.registry (num, gen) with
    | true => exact hr
    | false =>
      simp only [Bool.false_eq_true, if_false]
      exact ih _

theorem locate_object_registered (fuel : Nat) (src : Source) (st : DocState)
    (num gen : Nat) :
    is_registered ((locate_object fuel src st num gen).2).registry (num, gen) = true
    ∧ (locate_object fuel src st num gen).1
        = registryGet ((locate_object fuel src st num gen).2).registry (num, gen) := by
  cases fuel <;>
    exact ⟨bfGo_registered _ _ _ _ _, rfl⟩

theorem bfGo_null (src : Source) (num gen : Nat)
    (hbf : ∀ o ∈ src.bf, ∀ rv : Ref × PDFObj, o = some rv → rv.1 ≠ (num, gen)) :
    ∀ (k : Nat) (st : DocState),
      is_registered st.registry (num, gen) = false →
      registryGet ((bfGo src num gen k st)).registry (num, gen)
        = some PDFObj.null := by
  intro k
  induction k with
  | zero =>
    intro st h
    unfold bfGo
    rw [h]
    simp only [Bool.false_eq_true, if_false]
    exact registryGet_register_self _ _ _ h
  | succ kk ih =>
    intro st h
    unfold bfGo
    rw [h]
    simp only [Bool.false_eq_true, if_false]
    apply ih
    unfold bfStep
    cases hg : src.bf.get? st.bfPos with
    | none => exact h
    | some o =>
      cases o with
      | none => exact h
      | some rv =>
        have hmem := List.get?_mem hg
        have hne := hbf _ hmem rv rfl
        dsimp only
        rw [is_registered_register_of_ne _ _ _ _ hne]
        exact h

theorem xrefGo_nothing (recur : DocState → Nat → Nat → DocState) (src : Source)
    (num gen : Nat) :
    ∀ (sections : List XRefSection) (st : DocState),
      (∀ x ∈ sections, x.in_use num = none ∧ x.compressed num = none) →
      xrefGo recur src num gen st sections = st := by
  intro sections
  induction sections with
  | nil => intro st _; rfl
  | cons x rest ih =>
    intro st hx
    have hhead := hx x (by simp)
    unfold xrefGo tryInUse tryCompressed
    rw [hhead.1, hhead.2]
    dsimp only
    exact ih st (fun y hy => hx y (by simp [hy]))

theorem bfGo_of_registered (src : Source) (num gen k : Nat) (st : DocState)
    (h : is_registered st.registry (num, gen) = true) :
    bfGo src num gen k st = st := by
  unfold bfGo
  rw [h]
  simp

theorem locate_of_registered (fuel : Nat) (src : Source) (st : DocState)
    (num gen : Nat) (hx : src.xrefs = [])
    (h : is_registered st.registry (num, gen) = true) :
    locate_object fuel src st num gen = (registryGet st.registry (num, gen), st) := by
  cases fuel with
  | zero =>
    unfold locate_object locateFinish
    rw [hx]
    rw [show (xrefGo (fun s _ _ => s) src num gen st []) = st from rfl]
    rw [bfGo_of_registered src num gen _ st h]
  | succ f =>
    unfold locate_object locateFinish
    rw [hx]
    rw [show (xrefGo (fun s n g => (locate_object f src s n g).2) src num gen st [])
        = st from rfl]
    rw [bfGo_of_registered src num gen _ st h]

theorem chainFind (n : Nat) :
    ∀ (s i : Nat), s ≤ i → i < s + n →
    ((List.range' s n).map
        (fun j => ((j, 0), PDFObj.indirect (j + 1) 0 PDFObj.null))).find?
        (fun p => decide (p.1 = (i, 0)))
      = some ((i, 0), PDFObj.indirect (i + 1) 0 PDFObj.null) := by
  induction n with
  | zero => intro s i h1 h2; omega
  | succ m ih =>
    intro s i h1 h2
    rw [List.range'_succ, List.map_cons, List.find?_cons]
    by_cases he : s = i
    · subst he
      simp
    · have hd : (decide ((((s, 0) : Ref), PDFObj.indirect (s + 1) 0 PDFObj.null).1
          = (i, 0))) = false := by
        simp [he]
      rw [hd]
      exact ih (s + 1) i (by omega) (by omega)

theorem chainFindNone (n : Nat) :
    ∀ s : Nat, s + n ≤ 149 →
    ((List.range' s n).map
        (fun j => ((j, 0), PDFObj.indirect (j + 1) 0 PDFObj.null))).find?
        (fun p => decide (p.1 = ((149 : Nat), (0 : Nat))))
      = none := by
  induction n with
  | zero => intro s _; rfl
  | succ m ih =>
    intro s hs
    rw [List.range'_succ, List.map_cons, List.find?_cons]
    have hd : (decide ((((s, 0) : Ref), PDFObj.indirect (s + 1) 0 PDFObj.null).1
        = ((149 : Nat), (0 : Nat)))) = false := by
      have : s ≠ 149 := by omega
      simp [this]
    rw [hd]
    exact ih (s + 1) (by omega)

theorem indChainReg_find_lt (i : Nat) (h : i < 149) :
    indChainReg.find? (fun p => decide (p.1 = (i, 0)))
      = some ((i, 0), PDFObj.indirect (i + 1) 0 PDFObj.null) := by
  unfold indChainReg
  rw [List.find?_append, List.range_eq_range',
    chainFind 149 0 i (by omega) (by omega)]
  rfl

theorem indChainReg_find_149 :
    indChainReg.find? (fun p => decide (p.1 = ((149 : Nat), (0 : Nat))))
      = some ((149, 0), PDFObj.null) := by
  unfold indChainReg
  rw [List.find?_append, List.range_eq_range', chainFindNone 149 0 (by omega)]
  simp

theorem obj_chain_lt (i : Nat) (h : i < 149) :
    obj_by_ref 1 srcEmpty ⟨indChainReg, 0⟩ i 0
      = (some (PDFObj.indirect (i + 1) 0 PDFObj.null), ⟨indChainReg, 0⟩) := by
  unfold obj_by_ref
  have hreg : is_registered indChainReg (i, 0) = true := by
    unfold is_registered
    rw [indChainReg_find_lt i h]
    rfl
  rw [locate_of_registered 1 srcEmpty ⟨indChainReg, 0⟩ i 0 rfl hreg]
  have hget : registryGet (DocState.mk indChainReg 0).registry (i, 0)
      = some (PDFObj.indirect (i + 1) 0 PDFObj.null) := by
    unfold registryGet
    rw [show (DocState.mk indChainReg 0).registry = indChainReg from rfl,
      indChainReg_find_lt i h]
    rfl
  rw [hget]
  rfl

theorem obj_chain_149 :
    obj_by_ref 1 srcEmpty ⟨indChainReg, 0⟩ 149 0
      = (some PDFObj.null, ⟨indChainReg, 0⟩) := by
  unfold obj_by_ref
  have hreg : is_registered indChainReg (149, 0) = true := by
    unfold is_registered
    rw [indChainReg_find_149]
    rfl
  rw [locate_of_registered 1 srcEmpty ⟨indChainReg, 0⟩ 149 0 rfl hreg]
  have hget : registryGet (DocState.mk indChainReg 0).registry (149, 0)
      = some PDFObj.null := by
    unfold registryGet
    rw [show (DocState.mk indChainReg 0).registry = indChainReg from rfl,
      indChainReg_find_149]
    rfl
  rw [hget]
  rfl

theorem deepLoop_nonind (fuel : Nat) (src : Source) (c : Nat) (st : DocState)
    (obj : PDFObj) (h : obj.isIndirectObj = false) :
    deepLoop fuel src c st obj = (Except.ok obj, st) := by
  cases c with
  | zero => rfl
  | succ cc =>
    cases obj <;> first
      | rfl
      | simp [PDFObj.isIndirectObj] at h

theorem deepLoop_chain_short :
    ∀ (c i : Nat), i + c ≤ 149 →
    deepLoop 1 srcEmpty c ⟨indChainReg, 0⟩ (PDFObj.indirect i 0 PDFObj.null)
      = (Except.ok (PDFObj.indirect (i + c) 0 PDFObj.null), ⟨indChainReg, 0⟩) := by
  intro c
  induction c with
  | zero => intro i h; simp [deepLoop]
  | succ cc ih =>
    intro i h
    unfold deepLoop
    dsimp only
    rw [obj_chain_lt i (by omega)]
    show deepLoop 1 srcEmpty cc ⟨indChainReg, 0⟩ (PDFObj.indirect (i + 1) 0 PDFObj.null) = _
    rw [ih (i + 1) (by omega)]
    have he : i + 1 + cc = i + (cc + 1) := by omega
    rw [he]

theorem deepLoop_chain_done :
    ∀ (c i : Nat), i ≤ 149 → 150 ≤ i + c →
    deepLoop 1 srcEmpty c ⟨indChainReg, 0⟩ (PDFObj.indirect i 0 PDFObj.null)
      = (Except.ok PDFObj.null, ⟨indChainReg, 0⟩) := by
  intro c
  induction c with
  | zero => intro i h1 h2; omega
  | succ cc ih =>
    intro i h1 h2
    unfold deepLoop
    dsimp only
    by_cases hi : i = 149
    · subst hi
      rw [obj_chain_149]
      exact deepLoop_nonind 1 srcEmpty cc _ PDFObj.null rfl
    · rw [obj_chain_lt i (by omega)]
      exact ih (i + 1) (by omega) (by omega)

theorem deepLoop_no_depth (fuel : Nat) (src : Source) :
    ∀ (c : Nat) (st : DocState) (obj : PDFObj),
      (deepLoop fuel src c st obj).1 ≠ Except.error PDFError.depthExceeded := by
  intro c
  induction c with
  | zero =>
    intro st obj
    simp [deepLoop]
  | succ cc ih =>
    intro st obj
    unfold deepLoop
    cases obj with
    | indirect n g v =>
      dsimp only
      cases hob : obj_by_ref fuel src st n g with
      | mk oo st1 =>
        cases oo with
        | none => simp
        | some o => exact ih st1 o
    | null => simp
    | boolean b => simp
    | number n => simp
    | name s => simp
    | string s => simp
    | array xs => simp
    | dict kvs => simp
    | stream kvs data => simp
    | ref n g => simp

/-! ## The claims -/

/-- C1: for every value whose reference graph contains a cycle, `build`
terminates (it is a total function here, defined by well-founded recursion
on the unvisited document keys) and a reference already present in the
current recursion path's `visited` list is returned as-is, unexpanded;
on the concrete self-referential document, building the cycle yields the
dictionary with the self-reference left as a reference marker. -/
theorem build_cycle_guard :
    (∀ (d : Doc) (n g : Nat) (visited : List Ref) (lz : Bool),
        (n, g) ∈ visited →
        (build d (PDFObj.ref n g) visited lz).val.1 = PDFObj.ref n g)
    ∧ (build cyclicDoc (PDFObj.ref 1 0) [] false).val.1
        = PDFObj.dict [("A", PDFObj.ref 1 0)] := by
  constructor
  · intro d n g visited lz h
    rw [build_ref_mem d n g visited lz h]
  · have hf : lookupObj? cyclicDoc (1, 0)
        = some (PDFObj.dict [("A", PDFObj.ref 1 0)]) := rfl
    rw [build_ref_some cyclicDoc 1 0 [] false (by simp) _ hf]
    simp only [List.nil_append]
    rw [buildDispatch_dict]
    simp [buildKVs_cons, buildKVs_nil, build_ref_mem, obj_factory]

/-- Witness for C1: on the cyclic document, with the self-reference already
on the recursion path, `build` returns it unexpanded. -/
theorem build_cycle_guard_witness :
    ((1, 0) ∈ [((1 : Nat), (0 : Nat))])
    ∧ (build cyclicDoc (PDFObj.ref 1 0) [((1 : Nat), (0 : Nat))] true).val.1
        = PDFObj.ref 1 0 :=
  ⟨by simp, build_cycle_guard.1 cyclicDoc 1 0 [(1, 0)] true (by simp)⟩

/-- C2: a (number, generation) that exists nowhere in the byte source — no
index row for the number, no brute-force body element carrying that key,
not already registered — is resolved by `locate_object` to a null value
without raising: the brute-force scan's final parse failure registers the
key as null, and that null registry entry is what is returned. -/
theorem locate_object_missing_null :
    ∀ (fuel : Nat) (src : Source) (st : DocState) (num gen : Nat),
      is_registered st.registry (num, gen) = false →
      (∀ x ∈ src.xrefs, x.in_use num = none ∧ x.compressed num = none) →
      (∀ o ∈ src.bf, ∀ rv : Ref × PDFObj, o = some rv → rv.1 ≠ (num, gen)) →
      (locate_object fuel src st num gen).1 = some PDFObj.null
      ∧ registryGet ((locate_object fuel src st num gen).2).registry (num, gen)
          = some PDFObj.null := by
  intro fuel src st num gen h1 h2 h3
  cases fuel <;>
  · unfold locate_object locateFinish
    rw [xrefGo_nothing _ src num gen src.xrefs st h2]
    exact ⟨bfGo_null src num gen h3 _ st h1, bfGo_null src num gen h3 _ st h1⟩

/-- Witness for C2: locating (7, 0) in `missSrc` from the empty state
returns null. -/
theorem locate_object_missing_null_witness :
    is_registered (DocState.mk [] 0).registry (7, 0) = false
    ∧ (locate_object 1 missSrc ⟨[], 0⟩ 7 0).1 = some PDFObj.null := by
  refine ⟨rfl, (locate_object_missing_null 1 missSrc ⟨[], 0⟩ 7 0 rfl ?_ ?_).1⟩
  · intro x hx
    simp [missSrc] at hx
  · intro o ho rv he
    simp only [missSrc, List.mem_cons, List.mem_singleton,
      List.not_mem_nil, or_false] at ho
    rcases ho with rfl | rfl
    · simp at he
    · injection he with he2
      rw [← he2]
      decide

/-- Counterexample to C3 as stated: `deep_obj_by_ref` does not resolve
IndirectReference values at all — its loop tests `isinstance(obj,
IndirectObject)` (document.py line 127).  On a chain of 150 nested
references, with `max_depth = 100`, it returns the starting reference
unresolved and does not fail with the Depth-exceeded error the claim
requires. -/
theorem deep_obj_by_ref_reference_chain_counterexample :
    (deep_obj_by_ref 1 srcEmpty ⟨refChainReg, 0⟩ (PDFObj.ref 0 0) 100).1
        = Except.ok (PDFObj.ref 0 0)
    ∧ (deep_obj_by_ref 1 srcEmpty ⟨refChainReg, 0⟩ (PDFObj.ref 0 0) 100).1
        ≠ Except.error PDFError.depthExceeded := by
  have h1 : (deep_obj_by_ref 1 srcEmpty ⟨refChainReg, 0⟩ (PDFObj.ref 0 0) 100).1
      = Except.ok (PDFObj.ref 0 0) := rfl
  refine ⟨h1, ?_⟩
  rw [h1]
  simp

/-- C3 (amended): `deep_obj_by_ref` repeatedly resolves while the value is
still an IndirectObject (not an IndirectReference), for at most `max_depth`
hops, and fails with the Depth-exceeded error exactly when the loop's
budget is exhausted with the value still an IndirectObject; a chain of 150
nested IndirectObjects fails with `max_depth = 100` and succeeds (reaching
the null at the chain's end) with `max_depth = 200`. -/
theorem deep_obj_by_ref_indirect_object_loop :
    (∀ (fuel : Nat) (src : Source) (st : DocState) (obj : PDFObj)
        (maxdepth : Nat),
        (deep_obj_by_ref fuel src st obj maxdepth).1
            = Except.error PDFError.depthExceeded
          ↔ ∃ o st1, deepLoop fuel src maxdepth st obj = (Except.ok o, st1)
              ∧ o.isIndirectObj = true)
    ∧ (deep_obj_by_ref 1 srcEmpty ⟨indChainReg, 0⟩
          (PDFObj.indirect 0 0 PDFObj.null) 100).1
        = Except.error PDFError.depthExceeded
    ∧ (deep_obj_by_ref 1 srcEmpty ⟨indChainReg, 0⟩
          (PDFObj.indirect 0 0 PDFObj.null) 200).1
        = Except.ok PDFObj.null := by
  refine ⟨?_, ?_, ?_⟩
  case refine_2 =>
    have hs := deepLoop_chain_short 100 0 (by omega)
    norm_num at hs
    unfold deep_obj_by_ref
    rw [hs]
    rfl
  case refine_3 =>
    have hd := deepLoop_chain_done 200 0 (by omega) (by omega)
    unfold deep_obj_by_ref
    rw [hd]
    rfl
  intro fuel src st obj maxdepth
  unfold deep_obj_by_ref
  cases hdl : deepLoop fuel src maxdepth st obj with
  | mk e st1 =>
    cases e with
    | ok o =>
      dsimp only
      by_cases hio : o.isIndirectObj = true
      · rw [if_pos hio]
        dsimp only
        constructor
        · intro _
          exact ⟨o, st1, rfl, hio⟩
        · intro _
          rfl
      · rw [if_neg hio]
        dsimp only
        constructor
        · intro hcon
          simp at hcon
        · rintro ⟨o2, st2, heq, hio2⟩
          injection heq with heq1 heq2
          injection heq1 with heq1
          rw [← heq1] at hio2
          exact absurd hio2 hio
    | error e2 =>
      dsimp only
      constructor
      · intro hcon
        have hnd := deepLoop_no_depth fuel src maxdepth st obj
        rw [hdl] at hnd
        dsimp only at hcon hnd
        exact absurd hcon hnd
      · rintro ⟨o2, st2, heq, hio2⟩
        injection heq with heq1 heq2
        simp at heq1

/-- C4: resolving the same (number, generation) twice through
`locate_object` returns the identical registry entry both times — the
second call's result equals the first's — and re-registration under an
already-registered key never silently replaces the stored value. -/
theorem locate_object_idempotent :
    (∀ (fuel : Nat) (src : Source) (st : DocState) (num gen : Nat),
        (locate_object fuel src (locate_object fuel src st num gen).2 num gen).1
          = (locate_object fuel src st num gen).1)
    ∧ (∀ (R : Registry) (k : Ref) (v : PDFObj),
        is_registered R k = true →
        registryGet (register R k v) k = registryGet R k) := by
  constructor
  · intro fuel src st num gen
    have h1 := locate_object_registered fuel src st num gen
    have h2 := locate_object_registered fuel src
      (locate_object fuel src st num gen).2 num gen
    have h3 := pres_locateState fuel src num gen
      (locate_object fuel src st num gen).2 (num, gen) h1.1
    rw [h2.2, h3.2, ← h1.2]
  · intro R k v h
    exact registryGet_register_of_registered R k k v h

/-- Witness for C4: re-registering the key (1,0), stored as the number 3,
with a different value leaves the stored entry unchanged. -/
theorem locate_object_idempotent_witness :
    is_registered [(((1 : Nat), (0 : Nat)), PDFObj.number 3)] (1, 0) = true
    ∧ registryGet
        (register [(((1 : Nat), (0 : Nat)), PDFObj.number 3)] (1, 0)
          (PDFObj.number 9)) (1, 0)
      = registryGet [(((1 : Nat), (0 : Nat)), PDFObj.number 3)] (1, 0) :=
  ⟨rfl, locate_object_idempotent.2 _ _ _ rfl⟩

/-- C5: `MappedCodespaceRanges` lookup scans members in insertion order and
returns the mapped value of the first range containing the key; with
[0,10]→100 and [5,8]→200 inserted in that order, `lookup 6 = 106`, not 201;
when no member contains the key the lookup fails (returns `none`). -/
theorem mapped_ranges_first_match :
    (∀ (m : MappedCodespaceRanges) (x : Int) (r : MapRange),
        m.ranges.find? (fun rr => rr.toRange.contains x) = some r →
        m.getItem x = some (r.map_to_start + (x - r.begin)))
    ∧ (∀ (m : MappedCodespaceRanges) (x : Int),
        (∀ r ∈ m.ranges, r.toRange.contains x = false) → m.getItem x = none)
    ∧ overlapExample.getItem 6 = some 106
    ∧ overlapExample.getItem 6 ≠ some 201 := by
  refine ⟨?_, ?_, by decide, by decide⟩
  · intro m x r h
    have hc := List.find?_some h
    simp only [] at hc
    simp [MappedCodespaceRanges.getItem, h, MapRange.getItem, hc]
  · intro m x h
    have : m.ranges.find? (fun rr => rr.toRange.contains x) = none :=
      List.find?_eq_none.2 (by simpa using h)
    simp [MappedCodespaceRanges.getItem, this]

/-- Witness for C5: on the overlap example, the first containing range of 6
is [0,10]→100, and the lookup result is its mapped value 100 + (6 − 0). -/
theorem mapped_ranges_first_match_witness :
    (overlapExample.ranges.find? (fun rr => rr.toRange.contains 6)
        = some ⟨⟨0, 10⟩, 100⟩)
    ∧ overlapExample.getItem 6 = some (100 + (6 - 0)) :=
  ⟨by decide, mapped_ranges_first_match.1 overlapExample 6 ⟨⟨0, 10⟩, 100⟩ (by decide)⟩

/-- C6: for `Range(a,b)` with `a ≤ b`, `contains x` holds exactly when
`a ≤ x ≤ b` (both ends inclusive) and `length` equals `b − a + 1`;
`Range(0,4)` has length 5, contains 2, and contains neither −1 nor 5. -/
theorem range_contains_iff_length :
    (∀ a b x : Int, a ≤ b → (Range.contains ⟨a, b⟩ x = true ↔ a ≤ x ∧ x ≤ b))
    ∧ (∀ a b : Int, a ≤ b → Range.length ⟨a, b⟩ = b - a + 1)
    ∧ Range.length ⟨0, 4⟩ = 5
    ∧ Range.contains ⟨0, 4⟩ 2 = true
    ∧ Range.contains ⟨0, 4⟩ (-1) = false
    ∧ Range.contains ⟨0, 4⟩ 5 = false := by
  refine ⟨fun a b x _ => ?_, fun a b _ => rfl, by decide, by decide, by decide, by decide⟩
  simp [Range.contains]

/-- Witness for C6 at `Range(0,4)` and `x = 2`. -/
theorem range_contains_iff_length_witness :
    ((0 : Int) ≤ 4)
    ∧ (Range.contains ⟨0, 4⟩ 2 = true ↔ (0 : Int) ≤ 2 ∧ (2 : Int) ≤ 4)
    ∧ Range.length ⟨0, 4⟩ = 4 - 0 + 1 :=
  ⟨by decide, range_contains_iff_length.1 0 4 2 (by decide),
    range_contains_iff_length.2.1 0 4 (by decide)⟩

/-- C7: `MapRange(begin, end, destination_start).lookup x` returns
`destination_start + (x − begin)` when `begin ≤ x ≤ end` and fails (returns
`none`, the Key-not-found error) otherwise, while `get x default` returns
the same mapped value when contained and `default` otherwise, never
failing; `MapRange(0,4,5)` maps 0 to 5 and 4 to 9 and fails at 5. -/
theorem maprange_lookup_get_law :
    (∀ b e m x : Int,
        MapRange.getItem ⟨⟨b, e⟩, m⟩ x
          = if b ≤ x ∧ x ≤ e then some (m + (x - b)) else none)
    ∧ (∀ (b e m x : Int) (d : Option Int),
        MapRange.get ⟨⟨b, e⟩, m⟩ x d
          = if b ≤ x ∧ x ≤ e then some (m + (x - b)) else d)
    ∧ MapRange.getItem ⟨⟨0, 4⟩, 5⟩ 0 = some 5
    ∧ MapRange.getItem ⟨⟨0, 4⟩, 5⟩ 4 = some 9
    ∧ MapRange.getItem ⟨⟨0, 4⟩, 5⟩ 5 = none := by
  have h1 : ∀ b e m x : Int,
      MapRange.getItem ⟨⟨b, e⟩, m⟩ x
        = if b ≤ x ∧ x ≤ e then some (m + (x - b)) else none := by
    intro b e m x
    by_cases h : b ≤ x ∧ x ≤ e <;>
      simp [MapRange.getItem, Range.contains, h]
  refine ⟨h1, ?_, by decide, by decide, by decide⟩
  intro b e m x d
  by_cases h : b ≤ x ∧ x ≤ e <;>
    simp [MapRange.get, h1, h]

/-- C8: merging in either order yields identical membership (`contains`),
for plain and mapped collections alike; but for mapped collections with
overlapping ranges the merge order changes `lookup`, since `merge`
concatenates preserving order and lookup is first-match: merging
[0,10]→100 with [5,8]→200 gives `lookup 6 = 106` one way and 201 the
other. -/
theorem merge_membership_commutes :
    (∀ (a b : CodespaceRanges) (x : Int),
        (a.merge b).contains x = (b.merge a).contains x)
    ∧ (∀ (a b : MappedCodespaceRanges) (x : Int),
        (a.merge b).contains x = (b.merge a).contains x)
    ∧ (overlapA.merge overlapB).getItem 6 = some 106
    ∧ (overlapB.merge overlapA).getItem 6 = some 201
    ∧ (overlapA.merge overlapB).getItem 6 ≠ (overlapB.merge overlapA).getItem 6 := by
  refine ⟨?_, ?_, by decide, by decide, by decide⟩
  · intro a b x
    simp [CodespaceRanges.merge, CodespaceRanges.contains, List.any_append,
      Bool.or_comm]
  · intro a b x
    simp [MappedCodespaceRanges.merge, MappedCodespaceRanges.contains,
      List.any_append, Bool.or_comm]

/-- Counterexample to C9 as stated: with `lazy = false`, building a stream
whose dictionary holds a reference reassigns the given stream instance's
dictionary in place (document.py line 72) to a mapping that differs from
the original: the reference has been replaced by the resolved number. -/
theorem build_stream_dict_mutated_counterexample :
    streamDictAfterBuild refDoc [("Length", PDFObj.ref 1 0)] [] false
      ≠ [("Length", PDFObj.ref 1 0)] := by
  have h : streamDictAfterBuild refDoc [("Length", PDFObj.ref 1 0)] [] false
      = [("Length", PDFObj.number 7)] := by
    simp only [streamDictAfterBuild, Bool.false_eq_true, if_false]
    rw [buildKVs_cons, buildKVs_nil,
      build_ref_some refDoc 1 0 [] false (by simp) (PDFObj.number 7) rfl]
    simp [buildDispatch_number]
  rw [h]
  simp

/-- C9 (amended): `build` never alters a stream's raw payload bytes, for
any lazy flag; with `lazy = true` the stream's dictionary mapping is left
unchanged as well (both in the result and on the given instance).  (With
`lazy = false` the instance's dictionary is reassigned in place, see the
counterexample.) -/
theorem build_stream_payload_preserved :
    (∀ (d : Doc) (kvs : List (String × PDFObj)) (data : List Nat)
        (visited : List Ref) (lz : Bool),
        ∃ kvs2, (build d (PDFObj.stream kvs data) visited lz).val.1
          = PDFObj.stream kvs2 data)
    ∧ (∀ (d : Doc) (kvs : List (String × PDFObj)) (data : List Nat)
        (visited : List Ref),
        (build d (PDFObj.stream kvs data) visited true).val.1
          = PDFObj.stream kvs data)
    ∧ (∀ (d : Doc) (kvs : List (String × PDFObj)) (visited : List Ref),
        streamDictAfterBuild d kvs visited true = kvs) := by
  refine ⟨?_, ?_, ?_⟩
  · intro d kvs data visited lz
    cases lz
    · exact ⟨(buildKVs d kvs visited false).val.1, by
        rw [build_stream]
        simp [obj_factory]⟩
    · exact ⟨kvs, by
        rw [build_stream]
        simp [obj_factory]⟩
  · intro d kvs data visited
    rw [build_stream]
    simp [obj_factory]
  · intro d kvs visited
    rfl

/-- C10: `build` leaves `visited` exactly as it found it on every return:
the final state of the threaded list equals the initial one (a reference
not yet visited is pushed at line 59 and popped at line 80; no other case
touches the list). -/
theorem build_visited_restored (d : Doc) (obj : PDFObj) (visited : List Ref)
    (lz : Bool) :
    (build d obj visited lz).val.2 = visited :=
  (build d obj visited lz).property

end PDFReader
